import Mathlib

/-!
Shallow embedding of gmail-sqlite-db's checkpoint, sync, attachment and
IMAP-client logic, with theorems checking the natural-language spec
against the code.
-/

namespace GmailSqliteDb

/-- Integer value of a UID string, as `int(uid)` computes it in Python on
the digit strings produced by IMAP search: decimal digit parsing
(non-digit strings default to 0 in this model, where Python would raise). -/
def uidVal (s : String) : Nat :=
  if s.data ≠ [] ∧ s.data.all (fun c => c.isDigit) then
    s.data.foldl (fun acc c => acc * 10 + (c.toNat - 48)) 0
  else 0

/-- `config.MAX_UID_FETCH_RETRIES` from `src/config.py`. -/
def MAX_UID_FETCH_RETRIES : Nat := 3

/-- In-memory state of `CheckpointManager` (`src/checkpoint.py`): the last
processed UID, the failed-UID map (an association list mirroring the Python
dict `failed_uids`, keys unique, insertion order kept), and the
`in_progress` flag. -/
structure CheckpointState where
  last_uid : Nat
  failed_uids : List (String × Nat)
  in_progress : Bool
deriving Repr, DecidableEq

/-- The freshly initialized checkpoint state (`last_uid = 0`, no failed
UIDs, not in progress), as `_ensure_state_loaded` defaults it when the DB
has no row. -/
def initCheckpoint : CheckpointState :=
  { last_uid := 0, failed_uids := [], in_progress := false }

/-- The Python dict `failed_uids` has unique keys; states reachable through
`CheckpointManager` satisfy this. -/
def KeysNodup (st : CheckpointState) : Prop :=
  (st.failed_uids.map Prod.fst).Nodup

/-- `CheckpointManager.update_progress` (`src/checkpoint.py:80-90`):
`uid_int = int(uid); if uid_int > last_uid: last_uid = uid_int;
if uid_int % 250 == 0: save_state()`. The returned Bool records whether
`save_state` (a durable store write) was called. -/
def update_progress (st : CheckpointState) (uid : String) : CheckpointState × Bool :=
  let uid_int := uidVal uid
  if st.last_uid < uid_int then
    ({ st with last_uid := uid_int }, uid_int % 250 == 0)
  else
    (st, false)

/-- A sequence of `update_progress` calls; the Nat counts how many calls
performed a durable `save_state` write. -/
def run_updates (st : CheckpointState) (uids : List String) : CheckpointState × Nat :=
  uids.foldl (fun acc u =>
    let r := update_progress acc.1 u
    (r.1, acc.2 + (if r.2 then 1 else 0))) (st, 0)

/-- `CheckpointManager.get_uids_to_retry` (`src/checkpoint.py:119-126`):
failed UIDs with `count < max_retries`, in map order. -/
def get_uids_to_retry (st : CheckpointState) (max_retries : Nat) : List String :=
  ((st.failed_uids.filter (fun p => p.2 < max_retries)).map Prod.fst)

/-- `CheckpointManager.get_permanently_failed_uids`
(`src/checkpoint.py:128-135`): failed UIDs with `count >= max_retries`. -/
def get_permanently_failed_uids (st : CheckpointState) (max_retries : Nat) : List String :=
  ((st.failed_uids.filter (fun p => max_retries ≤ p.2)).map Prod.fst)

/-- `CheckpointManager.clear_failed_uid` (`src/checkpoint.py:137-150`):
if the UID is a key of `failed_uids`, delete that entry and persist
(remove from the DB table and `save_state`); otherwise do nothing. The
returned Bool records whether any store write happened. -/
def clear_failed_uid (st : CheckpointState) (uid : String) : CheckpointState × Bool :=
  if st.failed_uids.any (fun p => p.1 == uid) then
    ({ st with failed_uids := st.failed_uids.eraseP (fun p => p.1 == uid) }, true)
  else
    (st, false)

/-! ### Basic facts about the checkpoint operations -/

theorem update_progress_last_uid (st : CheckpointState) (uid : String) :
    (update_progress st uid).1.last_uid = max st.last_uid (uidVal uid) := by
  unfold update_progress
  by_cases h : st.last_uid < uidVal uid
  · simp [h, Nat.max_eq_right (Nat.le_of_lt h)]
  · simp [h, Nat.max_eq_left (Nat.le_of_not_lt h)]

theorem update_progress_failed (st : CheckpointState) (uid : String) :
    (update_progress st uid).1.failed_uids = st.failed_uids := by
  unfold update_progress
  by_cases h : st.last_uid < uidVal uid <;> simp [h]

theorem run_updates_foldl_mono (uids : List String) :
    ∀ acc : CheckpointState × Nat,
      acc.1.last_uid ≤ (uids.foldl (fun acc u =>
        let r := update_progress acc.1 u
        (r.1, acc.2 + (if r.2 then 1 else 0))) acc).1.last_uid := by
  induction uids with
  | nil => intro acc; simp
  | cons u rest ih =>
    intro acc
    simp only [List.foldl_cons]
    refine le_trans ?_ (ih _)
    simp only [update_progress_last_uid]
    exact Nat.le_max_left _ _

theorem run_updates_mono (st : CheckpointState) (uids : List String) :
    st.last_uid ≤ (run_updates st uids).1.last_uid :=
  run_updates_foldl_mono uids (st, 0)

/-- On an association list with unique keys, a key determines its value. -/
theorem keys_nodup_val_unique {l : List (String × Nat)}
    (h : (l.map Prod.fst).Nodup) {u : String} {c₁ c₂ : Nat}
    (h₁ : (u, c₁) ∈ l) (h₂ : (u, c₂) ∈ l) : c₁ = c₂ := by
  induction l with
  | nil => cases h₁
  | cons p rest ih =>
    rw [List.map_cons, List.nodup_cons] at h
    rcases List.mem_cons.mp h₁ with e₁ | m₁
    · rcases List.mem_cons.mp h₂ with e₂ | m₂
      · rw [← e₁] at e₂; exact (Prod.mk.injEq _ _ _ _ ▸ e₂).2.symm
      · exfalso
        have hp1 : p.1 = u := by rw [← e₁]
        exact (hp1 ▸ h.1) (List.mem_map_of_mem Prod.fst m₂)
    · rcases List.mem_cons.mp h₂ with e₂ | m₂
      · exfalso
        have hp1 : p.1 = u := by rw [← e₂]
        exact (hp1 ▸ h.1) (List.mem_map_of_mem Prod.fst m₁)
      · exact ih h.2 m₁ m₂

theorem mem_get_uids_to_retry {st : CheckpointState} {m : Nat} {uid : String} :
    uid ∈ get_uids_to_retry st m ↔ ∃ c, (uid, c) ∈ st.failed_uids ∧ c < m := by
  unfold get_uids_to_retry
  simp only [List.mem_map, List.mem_filter]
  constructor
  · rintro ⟨⟨u, c⟩, ⟨hm, hc⟩, rfl⟩
    exact ⟨c, hm, by simpa using hc⟩
  · rintro ⟨c, hm, hc⟩
    exact ⟨(uid, c), ⟨hm, by simpa using hc⟩, rfl⟩

theorem mem_get_permanently_failed {st : CheckpointState} {m : Nat} {uid : String} :
    uid ∈ get_permanently_failed_uids st m ↔ ∃ c, (uid, c) ∈ st.failed_uids ∧ m ≤ c := by
  unfold get_permanently_failed_uids
  simp only [List.mem_map, List.mem_filter]
  constructor
  · rintro ⟨⟨u, c⟩, ⟨hm, hc⟩, rfl⟩
    exact ⟨c, hm, by simpa using hc⟩
  · rintro ⟨c, hm, hc⟩
    exact ⟨(uid, c), ⟨hm, by simpa using hc⟩, rfl⟩

/-! ### Claim theorems for the checkpoint layer -/

/-- C2: `update_progress(uid)` sets `last_uid` to `int(uid)` exactly when
`int(uid) > last_uid` (otherwise the state is unchanged, the new `last_uid`
being `max last_uid (int uid)`), and over any sequence of `update_progress`
calls `last_uid` never regresses. -/
theorem C2_update_progress_never_regresses (st : CheckpointState) (uid : String) :
    (update_progress st uid).1 = { st with last_uid := max st.last_uid (uidVal uid) } ∧
    ∀ uids : List String, st.last_uid ≤ (run_updates st uids).1.last_uid := by
  refine ⟨?_, fun uids => run_updates_mono st uids⟩
  unfold update_progress
  by_cases h : st.last_uid < uidVal uid
  · simp [h, Nat.max_eq_right (Nat.le_of_lt h)]
  · simp [h, Nat.max_eq_left (Nat.le_of_not_lt h)]

/-- C3: `get_uids_to_retry(m)` returns exactly the failed UIDs with
`retry_count < m`, `get_permanently_failed_uids(m)` exactly those with
`retry_count >= m`; together they partition the failed set (under the
dict's unique-key invariant), and a UID that failed exactly `m` times is
in the permanently-failed view and not in the retry view. -/
theorem C3_retry_views_partition (st : CheckpointState) (m : Nat) (uid : String) :
    (uid ∈ get_uids_to_retry st m ↔ ∃ c, (uid, c) ∈ st.failed_uids ∧ c < m) ∧
    (uid ∈ get_permanently_failed_uids st m ↔ ∃ c, (uid, c) ∈ st.failed_uids ∧ m ≤ c) ∧
    ((∃ c, (uid, c) ∈ st.failed_uids) →
      uid ∈ get_uids_to_retry st m ∨ uid ∈ get_permanently_failed_uids st m) ∧
    (KeysNodup st →
      ¬(uid ∈ get_uids_to_retry st m ∧ uid ∈ get_permanently_failed_uids st m)) ∧
    ((uid, m) ∈ st.failed_uids → KeysNodup st →
      uid ∈ get_permanently_failed_uids st m ∧ uid ∉ get_uids_to_retry st m) := by
  refine ⟨mem_get_uids_to_retry, mem_get_permanently_failed, ?_, ?_, ?_⟩
  · rintro ⟨c, hc⟩
    rcases Nat.lt_or_ge c m with h | h
    · exact Or.inl (mem_get_uids_to_retry.mpr ⟨c, hc, h⟩)
    · exact Or.inr (mem_get_permanently_failed.mpr ⟨c, hc, h⟩)
  · rintro hnd ⟨hr, hp⟩
    obtain ⟨c₁, hm₁, hlt⟩ := mem_get_uids_to_retry.mp hr
    obtain ⟨c₂, hm₂, hge⟩ := mem_get_permanently_failed.mp hp
    have : c₁ = c₂ := keys_nodup_val_unique hnd hm₁ hm₂
    omega
  · intro hmem hnd
    refine ⟨mem_get_permanently_failed.mpr ⟨m, hmem, le_refl m⟩, ?_⟩
    intro hr
    obtain ⟨c, hm, hlt⟩ := mem_get_uids_to_retry.mp hr
    have : c = m := keys_nodup_val_unique hnd hm hmem
    omega

/-- Witness for C3 at a concrete state: UID "7" with retry count 3 =
`MAX_UID_FETCH_RETRIES` is permanently failed and not retried. -/
theorem C3_retry_views_partition_witness :
    "7" ∈ get_permanently_failed_uids ⟨0, [("7", 3)], false⟩ 3 ∧
    "7" ∉ get_uids_to_retry ⟨0, [("7", 3)], false⟩ 3 :=
  (C3_retry_views_partition ⟨0, [("7", 3)], false⟩ 3 "7").2.2.2.2
    (by decide) (by unfold KeysNodup; decide)

set_option maxRecDepth 100000 in
/-- C6 (counterexample): the very first `update_progress` call of a run
performs a durable save when the UID's value is a multiple of 250 — the
save schedule depends on the UID's integer value, not on the number of
calls made; a sequence of 250 calls whose UID values avoid multiples of
250 performs no durable save at all. -/
theorem C6_counterexample :
    (update_progress initCheckpoint "250").2 = true ∧
    (run_updates initCheckpoint
      ((List.range 249).map (fun i => toString (i + 1)) ++ ["251"])).2 = 0 ∧
    ((List.range 249).map (fun i => toString (i + 1)) ++ ["251"]).length = 250 := by
  refine ⟨by decide, by decide, by decide⟩

/-- C6 (amended): `update_progress` performs a durable store write exactly
when the new UID advances `last_uid` and its integer value is divisible by
250; no other call writes to the store. -/
theorem C6_save_iff_uid_multiple (st : CheckpointState) (uid : String) :
    (update_progress st uid).2 =
      (decide (st.last_uid < uidVal uid) && decide (uidVal uid % 250 = 0)) := by
  unfold update_progress
  by_cases h : st.last_uid < uidVal uid <;>
    by_cases h2 : uidVal uid % 250 = 0 <;> simp [h, h2]

/-! ### Headers-mode UID universe (`sync_email_headers`, `src/sync.py`) -/

/-- The comparison `sorted(..., key=int)` uses: ascending integer UID value. -/
def uidLE (a b : String) : Prop := uidVal a ≤ uidVal b

instance : DecidableRel uidLE := fun a b => Nat.decLe (uidVal a) (uidVal b)

instance : IsTotal String uidLE := ⟨fun a b => Nat.le_total (uidVal a) (uidVal b)⟩

instance : IsTrans String uidLE := ⟨fun _ _ _ h h₂ => Nat.le_trans h h₂⟩

/-- Python's `sorted(uids, key=int)`: a stable sort ascending by integer
UID value. -/
def sortByUidVal (l : List String) : List String := l.insertionSort uidLE

/-- `last_uid = max(last_uid_checkpoint, last_uid_db)` (`src/sync.py:237-239`). -/
def effective_last_uid (ckptLast dbMax : Nat) : Nat := max ckptLast dbMax

/-- The UID universe `sync_email_headers` attempts to process
(`src/sync.py:269-280`): server-discovered UIDs filtered to
`int(uid) > last_uid`, unioned (Python set union, modelled as append plus
dedup) with the retry set, sorted ascending by integer value; when the
server search returned nothing, the deduplicated retry set alone, sorted
(and hence empty when the retry set is also empty, matching the early
return). -/
def sync_email_headers_universe (serverUids retryUids : List String)
    (ckptLast dbMax : Nat) : List String :=
  let last_uid := effective_last_uid ckptLast dbMax
  if serverUids.isEmpty then
    sortByUidVal retryUids.dedup
  else
    let uids_to_process_server :=
      serverUids.filter (fun u => decide (last_uid < uidVal u))
    sortByUidVal (uids_to_process_server ++ retryUids).dedup

/-- C1: in headers mode the attempted UID set is exactly the
server-discovered UIDs whose integer value exceeds
`effective_last_uid = max(checkpoint.last_uid, max stored header uid)`,
unioned with the retry set, and the resulting list is sorted ascending by
integer UID value (so "9" precedes "10"). -/
theorem C1_headers_universe (serverUids retryUids : List String)
    (ckptLast dbMax : Nat) (u : String) :
    (u ∈ sync_email_headers_universe serverUids retryUids ckptLast dbMax ↔
      ((u ∈ serverUids ∧ effective_last_uid ckptLast dbMax < uidVal u) ∨
        u ∈ retryUids)) ∧
    List.Sorted uidLE (sync_email_headers_universe serverUids retryUids ckptLast dbMax) ∧
    sync_email_headers_universe ["10", "9"] [] 0 0 = ["9", "10"] := by
  refine ⟨?_, ?_, by decide⟩
  · unfold sync_email_headers_universe
    by_cases hs : serverUids.isEmpty
    · have : serverUids = [] := List.isEmpty_iff.mp hs
      subst this
      simp [sortByUidVal, List.mem_insertionSort, List.mem_dedup]
    · simp [hs, sortByUidVal, List.mem_insertionSort, List.mem_dedup,
        List.mem_filter]
  · unfold sync_email_headers_universe
    by_cases hs : serverUids.isEmpty <;>
      simp only [hs, if_true, if_false, sortByUidVal] <;>
      exact List.sorted_insertionSort uidLE _

/-! ### The per-UID batch loop of `EmailSyncer.run` (`src/sync.py:146-185`) -/

/-- Per-run state of the `EmailSyncer.run` UID loop: the syncer's
`prev_mailbox`, the (uid, mailbox) pairs marked failed on a mailbox
selection failure, and the (uid, mailbox) pairs whose fetch was
attempted. -/
structure RunLoopState where
  prev_mailbox : Option String
  select_failed : List (String × String)
  fetch_attempted : List (String × String)
deriving Repr, DecidableEq

/-- One iteration of the per-UID loop in `EmailSyncer.run`
(`src/sync.py:154-167`): when the UID's mailbox differs from
`prev_mailbox` it is re-selected (`selectOk` models the per-mailbox
outcome of `ImapClient.select_mailbox`); a selection failure marks the UID
failed and continues without attempting its fetch, leaving `prev_mailbox`
unchanged; otherwise the UID's fetch is attempted. -/
def runLoopStep (selectOk : String → Bool) (s : RunLoopState)
    (item : String × String) : RunLoopState :=
  if s.prev_mailbox = some item.2 then
    { s with fetch_attempted := s.fetch_attempted ++ [item] }
  else if selectOk item.2 then
    { prev_mailbox := some item.2,
      select_failed := s.select_failed,
      fetch_attempted := s.fetch_attempted ++ [item] }
  else
    { s with select_failed := s.select_failed ++ [item] }

/-- The whole UID loop of `EmailSyncer.run` over a batch, starting with no
mailbox selected (`prev_mailbox = None`). Chunking (`CHUNK_SIZE` slices)
does not change the per-item control flow and is flattened here. -/
def runLoop (selectOk : String → Bool) (batch : List (String × String)) : RunLoopState :=
  batch.foldl (runLoopStep selectOk) ⟨none, [], []⟩

theorem runLoop_foldl_spec (selectOk : String → Bool) (batch : List (String × String)) :
    ∀ s : RunLoopState, (∀ m, s.prev_mailbox = some m → selectOk m = true) →
      (∀ item ∈ batch, selectOk item.2 = false →
          item ∈ (batch.foldl (runLoopStep selectOk) s).select_failed) ∧
      (∀ item : String × String, selectOk item.2 = false →
          (item ∈ (batch.foldl (runLoopStep selectOk) s).fetch_attempted ↔
            item ∈ s.fetch_attempted)) ∧
      (∀ item ∈ batch, selectOk item.2 = true →
          item ∈ (batch.foldl (runLoopStep selectOk) s).fetch_attempted) ∧
      (∀ item ∈ s.select_failed,
          item ∈ (batch.foldl (runLoopStep selectOk) s).select_failed) ∧
      (∀ item ∈ s.fetch_attempted,
          item ∈ (batch.foldl (runLoopStep selectOk) s).fetch_attempted) := by
  induction batch with
  | nil =>
    intro s _
    simp
  | cons hd tl ih =>
    intro s hinv
    simp only [List.foldl_cons]
    by_cases h1 : s.prev_mailbox = some hd.2
    · have hsel : selectOk hd.2 = true := hinv _ h1
      have hstep : runLoopStep selectOk s hd =
          { s with fetch_attempted := s.fetch_attempted ++ [hd] } := by
        unfold runLoopStep; rw [if_pos h1]
      rw [hstep]
      obtain ⟨I1, I2, I3, I4, I5⟩ :=
        ih { s with fetch_attempted := s.fetch_attempted ++ [hd] }
          (fun m hm => hinv m hm)
      refine ⟨?_, ?_, ?_, I4, fun item him => I5 item (by simp [him])⟩
      · intro item hitem hfalse
        rcases List.mem_cons.mp hitem with rfl | htl
        · rw [hsel] at hfalse; cases hfalse
        · exact I1 item htl hfalse
      · intro item hfalse
        rw [I2 item hfalse]
        simp only [List.mem_append, List.mem_singleton]
        constructor
        · rintro (h | rfl)
          · exact h
          · rw [hsel] at hfalse; cases hfalse
        · exact Or.inl
      · intro item hitem htrue
        rcases List.mem_cons.mp hitem with rfl | htl
        · exact I5 item (by simp)
        · exact I3 item htl htrue
    · by_cases h2 : selectOk hd.2 = true
      · have hstep : runLoopStep selectOk s hd =
            { prev_mailbox := some hd.2,
              select_failed := s.select_failed,
              fetch_attempted := s.fetch_attempted ++ [hd] } := by
          unfold runLoopStep; rw [if_neg h1, if_pos h2]
        rw [hstep]
        obtain ⟨I1, I2, I3, I4, I5⟩ :=
          ih { prev_mailbox := some hd.2,
               select_failed := s.select_failed,
               fetch_attempted := s.fetch_attempted ++ [hd] }
            (fun m hm => by
              have : hd.2 = m := Option.some.inj hm
              exact this ▸ h2)
        refine ⟨?_, ?_, ?_, I4, fun item him => I5 item (by simp [him])⟩
        · intro item hitem hfalse
          rcases List.mem_cons.mp hitem with rfl | htl
          · rw [h2] at hfalse; cases hfalse
          · exact I1 item htl hfalse
        · intro item hfalse
          rw [I2 item hfalse]
          simp only [List.mem_append, List.mem_singleton]
          constructor
          · rintro (h | rfl)
            · exact h
            · rw [h2] at hfalse; cases hfalse
          · exact Or.inl
        · intro item hitem htrue
          rcases List.mem_cons.mp hitem with rfl | htl
          · exact I5 item (by simp)
          · exact I3 item htl htrue
      · have hstep : runLoopStep selectOk s hd =
            { s with select_failed := s.select_failed ++ [hd] } := by
          unfold runLoopStep; rw [if_neg h1, if_neg h2]
        rw [hstep]
        obtain ⟨I1, I2, I3, I4, I5⟩ :=
          ih { s with select_failed := s.select_failed ++ [hd] }
            (fun m hm => hinv m hm)
        refine ⟨?_, fun item hfalse => I2 item hfalse, ?_,
          fun item him => I4 item (by simp [him]), I5⟩
        · intro item hitem hfalse
          rcases List.mem_cons.mp hitem with rfl | htl
          · exact I4 item (by simp)
          · exact I1 item htl hfalse
        · intro item hitem htrue
          rcases List.mem_cons.mp hitem with rfl | htl
          · exact absurd htrue h2
          · exact I3 item htl htrue

/-- C5: when re-selecting a mailbox fails (modelled as a per-mailbox
selection outcome, deterministic within the run), every UID destined for
that mailbox in the batch is marked failed and none of their fetches is
attempted, while the loop still attempts the fetch of every UID whose
mailbox selects successfully — a selection failure never aborts the run. -/
theorem C5_select_failure_marks_all (selectOk : String → Bool)
    (batch : List (String × String)) (mbox : String)
    (hfail : selectOk mbox = false) :
    (∀ uid : String, (uid, mbox) ∈ batch →
      (uid, mbox) ∈ (runLoop selectOk batch).select_failed ∧
      (uid, mbox) ∉ (runLoop selectOk batch).fetch_attempted) ∧
    (∀ (uid m : String), (uid, m) ∈ batch → selectOk m = true →
      (uid, m) ∈ (runLoop selectOk batch).fetch_attempted) := by
  obtain ⟨I1, I2, I3, _, _⟩ :=
    runLoop_foldl_spec selectOk batch ⟨none, [], []⟩ (fun m hm => by cases hm)
  constructor
  · intro uid hmem
    refine ⟨I1 (uid, mbox) hmem hfail, ?_⟩
    intro hin
    have := (I2 (uid, mbox) hfail).mp hin
    simp at this
  · intro uid m hmem htrue
    exact I3 (uid, m) hmem htrue

/-- Witness for C5: in the batch [("1","A"),("2","B"),("3","A")] with
mailbox "B" failing to select, UID "2" is marked failed and not fetched,
while UID "3" (mailbox "A") is still fetched. -/
theorem C5_select_failure_marks_all_witness :
    (("2", "B") ∈ (runLoop (fun m => !(m == "B"))
        [("1", "A"), ("2", "B"), ("3", "A")]).select_failed ∧
      ("2", "B") ∉ (runLoop (fun m => !(m == "B"))
        [("1", "A"), ("2", "B"), ("3", "A")]).fetch_attempted) ∧
    ("3", "A") ∈ (runLoop (fun m => !(m == "B"))
        [("1", "A"), ("2", "B"), ("3", "A")]).fetch_attempted :=
  ⟨(C5_select_failure_marks_all (fun m => !(m == "B"))
      [("1", "A"), ("2", "B"), ("3", "A")] "B" (by decide)).1 "2" (by decide),
   (C5_select_failure_marks_all (fun m => !(m == "B"))
      [("1", "A"), ("2", "B"), ("3", "A")] "B" (by decide)).2 "3" "A"
      (by decide) (by decide)⟩

/-! ### Successful processing clears failures
(`EmailSyncer.process_headers`, `src/sync.py:42-82`,
`CheckpointManager.clear_failed_uid`, `src/checkpoint.py:137-150`) -/

/-- `DatabaseManager.save_email_header` (`src/db.py:383-388`): an
`INSERT OR REPLACE` keyed by `uid`, modelled on the list of stored header
UIDs for the mailbox. -/
def save_email_header (records : List String) (uid : String) : List String :=
  if records.elem uid then records else records ++ [uid]

/-- The success path of `EmailSyncer.process_headers` (`src/sync.py:64-82`):
the header row is saved, `update_progress` runs, and, if the UID is in the
failed cache (which mirrors the checkpoint's failed map), `clear_failed_uid`
removes it. Returns the new checkpoint state and the stored-header UID
list. -/
def process_headers_success (ck : CheckpointState) (records : List String)
    (uid : String) : CheckpointState × List String :=
  let records' := save_email_header records uid
  let ck₁ := (update_progress ck uid).1
  let ck₂ :=
    if ck₁.failed_uids.any (fun p => p.1 == uid) then (clear_failed_uid ck₁ uid).1
    else ck₁
  (ck₂, records')

/-- After erasing a key's entry, that key is gone from an association list
with unique keys. -/
theorem key_not_mem_eraseP {l : List (String × Nat)}
    (hnd : (l.map Prod.fst).Nodup) (u : String) :
    ∀ p ∈ l.eraseP (fun q => q.1 == u), p.1 ≠ u := by
  induction l with
  | nil => simp
  | cons hd tl ih =>
    rw [List.map_cons, List.nodup_cons] at hnd
    by_cases h : hd.1 == u
    · simp only [List.eraseP_cons, h, cond_true]
      intro p hp he
      have hu : hd.1 = u := by simpa using h
      exact hnd.1 (hu ▸ he ▸ List.mem_map_of_mem Prod.fst hp)
    · have hb : (hd.1 == u) = false := by simpa using h
      simp only [List.eraseP_cons, hb, cond_false]
      intro p hp
      rcases List.mem_cons.mp hp with rfl | hptl
      · simpa using h
      · exact ih hnd.2 p hptl

theorem clear_failed_uid_absent {st : CheckpointState} {u : String}
    (h : ∀ c, (u, c) ∉ st.failed_uids) : clear_failed_uid st u = (st, false) := by
  unfold clear_failed_uid
  rw [if_neg]
  intro hany
  obtain ⟨p, hp, he⟩ := List.any_eq_true.mp hany
  have : p.1 = u := by simpa using he
  exact h p.2 (by rw [← this]; exact hp)

theorem clear_failed_uid_present {st : CheckpointState} {u : String} {c : Nat}
    (h : (u, c) ∈ st.failed_uids) :
    (clear_failed_uid st u).2 = true ∧
    (clear_failed_uid st u).1.failed_uids =
      st.failed_uids.eraseP (fun q => q.1 == u) := by
  unfold clear_failed_uid
  rw [if_pos]
  · exact ⟨rfl, rfl⟩
  · exact List.any_eq_true.mpr ⟨(u, c), h, by simp⟩

/-- C7: a failed UID (retry count below `MAX_UID_FETCH_RETRIES`) whose
next processing attempt succeeds is afterwards absent from both failed-UID
views and its header row is in the record store; `clear_failed_uid`
removes the entry when present (performing a store write) and performs no
write, leaving the state unchanged, when the UID is absent. -/
theorem C7_success_clears_failure (ck : CheckpointState) (records : List String)
    (uid : String) (c : Nat) (hnd : KeysNodup ck)
    (hmem : (uid, c) ∈ ck.failed_uids) (_hc : c < MAX_UID_FETCH_RETRIES) :
    (uid ∉ get_uids_to_retry (process_headers_success ck records uid).1
        MAX_UID_FETCH_RETRIES ∧
      uid ∉ get_permanently_failed_uids (process_headers_success ck records uid).1
        MAX_UID_FETCH_RETRIES ∧
      uid ∈ (process_headers_success ck records uid).2) ∧
    (∀ (st : CheckpointState) (u : String), (∀ d, (u, d) ∉ st.failed_uids) →
      clear_failed_uid st u = (st, false)) ∧
    (clear_failed_uid ck uid).2 = true := by
  have hfailed₁ : (update_progress ck uid).1.failed_uids = ck.failed_uids :=
    update_progress_failed ck uid
  have hmem₁ : (uid, c) ∈ (update_progress ck uid).1.failed_uids := by
    rw [hfailed₁]; exact hmem
  have hany : (update_progress ck uid).1.failed_uids.any (fun p => p.1 == uid) = true :=
    List.any_eq_true.mpr ⟨(uid, c), hmem₁, by simp⟩
  have hfinal : (process_headers_success ck records uid).1.failed_uids =
      ck.failed_uids.eraseP (fun q => q.1 == uid) := by
    unfold process_headers_success
    simp only [hany, if_true]
    rw [(clear_failed_uid_present hmem₁).2, hfailed₁]
  have hgone : ∀ p ∈ (process_headers_success ck records uid).1.failed_uids,
      p.1 ≠ uid := by
    rw [hfinal]; exact key_not_mem_eraseP hnd uid
  refine ⟨⟨?_, ?_, ?_⟩, ?_, (clear_failed_uid_present hmem).1⟩
  · intro hin
    obtain ⟨d, hd, _⟩ := mem_get_uids_to_retry.mp hin
    exact hgone (uid, d) hd rfl
  · intro hin
    obtain ⟨d, hd, _⟩ := mem_get_permanently_failed.mp hin
    exact hgone (uid, d) hd rfl
  · show uid ∈ save_email_header records uid
    unfold save_email_header
    by_cases h : records.elem uid
    · rw [if_pos h]; exact List.mem_of_elem_eq_true h
    · rw [if_neg h]; simp
  · intro st u habs
    exact clear_failed_uid_absent habs

/-- Witness for C7 at a concrete state: UID "5" with retry count 1
succeeds; it is absent from both views and stored. -/
theorem C7_success_clears_failure_witness :
    "5" ∉ get_uids_to_retry
        (process_headers_success ⟨0, [("5", 1)], false⟩ [] "5").1
        MAX_UID_FETCH_RETRIES ∧
    "5" ∉ get_permanently_failed_uids
        (process_headers_success ⟨0, [("5", 1)], false⟩ [] "5").1
        MAX_UID_FETCH_RETRIES ∧
    "5" ∈ (process_headers_success ⟨0, [("5", 1)], false⟩ [] "5").2 :=
  (C7_success_clears_failure ⟨0, [("5", 1)], false⟩ [] "5" 1
    (by unfold KeysNodup; decide) (by decide) (by decide)).1

/-! ### Attachment extraction (`sync_attachments`, `src/sync.py:349-424`;
`save_attachment_blob` / `map_email_to_attachment`, `src/db.py:429-441`) -/

/-- A row of the `attachment_blobs` table: primary key `sha256`, raw
bytes (modelled as a byte list), byte size. -/
structure AttachmentBlob where
  sha256 : String
  content : List Nat
  size : Nat
deriving Repr, DecidableEq

/-- A row of the `email_attachments` table, UNIQUE on
(uid, mailbox, sha256, filename). -/
structure AttachmentMapping where
  uid : String
  mailbox : String
  sha256 : String
  filename : String
deriving Repr, DecidableEq

/-- The two attachment tables. -/
structure AttachDB where
  blobs : List AttachmentBlob
  mappings : List AttachmentMapping
deriving Repr, DecidableEq

def emptyAttachDB : AttachDB := ⟨[], []⟩

/-- `DatabaseManager.save_attachment_blob` (`src/db.py:429-434`):
`INSERT OR IGNORE` on primary key `sha256` — insert only when no row with
that hash exists, never update. -/
def save_attachment_blob (db : AttachDB) (sha : String) (content : List Nat)
    (size : Nat) : AttachDB :=
  if db.blobs.any (fun b => b.sha256 == sha) then db
  else { db with blobs := db.blobs ++ [⟨sha, content, size⟩] }

/-- `DatabaseManager.map_email_to_attachment` (`src/db.py:436-441`):
`INSERT OR IGNORE` on the UNIQUE (uid, mailbox, sha256, filename) tuple. -/
def map_email_to_attachment (db : AttachDB) (uid mailbox sha filename : String) :
    AttachDB :=
  if db.mappings.elem ⟨uid, mailbox, sha, filename⟩ then db
  else { db with mappings := db.mappings ++ [⟨uid, mailbox, sha, filename⟩] }

/-- A MIME part as `msg.iter_attachments()` yields it: the
Content-Disposition `filename` parameter, the legacy Content-Type `name`
parameter, and the decoded payload bytes. -/
structure MimePart where
  dispositionFilename : Option String
  contentTypeName : Option String
  payload : List Nat
deriving Repr, DecidableEq

/-- `part.get_filename()` as used at `src/sync.py:372`: the
Content-Disposition filename, falling back to (synthesizing from) the
Content-Type `name` parameter. -/
def get_filename (p : MimePart) : Option String :=
  p.dispositionFilename.orElse (fun _ => p.contentTypeName)

/-- Processing of one MIME part in `sync_attachments`
(`src/sync.py:371-391`): skip when the filename is missing/falsy or the
decoded payload is empty; otherwise store the blob under its content hash
`h` (modelling `hashlib.sha256(...).hexdigest()`) and add the mapping
row. -/
def processPart (h : List Nat → String) (uid mailbox : String)
    (db : AttachDB) (p : MimePart) : AttachDB :=
  if get_filename p = none ∨ (get_filename p).getD "" = "" then db
  else if p.payload.length = 0 then db
  else
    map_email_to_attachment
      (save_attachment_blob db (h p.payload) p.payload p.payload.length)
      uid mailbox (h p.payload) ((get_filename p).getD "")

/-- Processing of all attachment parts of one stored message. -/
def processMessage (h : List Nat → String) (uid mailbox : String)
    (db : AttachDB) (parts : List MimePart) : AttachDB :=
  parts.foldl (processPart h uid mailbox) db

/-- Number of blob rows stored under hash key `k`. -/
def blobCount (db : AttachDB) (k : String) : Nat :=
  db.blobs.countP (fun b => b.sha256 == k)

theorem blob_any_iff {db : AttachDB} {sha : String} :
    db.blobs.any (fun b => b.sha256 == sha) = true ↔ 0 < blobCount db sha := by
  unfold blobCount
  rw [List.countP_pos_iff, List.any_eq_true]

theorem map_blobs_eq (db : AttachDB) (uid mailbox sha filename : String) :
    (map_email_to_attachment db uid mailbox sha filename).blobs = db.blobs := by
  unfold map_email_to_attachment
  split <;> rfl

theorem save_blobCount_self (db : AttachDB) (sha : String) (content : List Nat)
    (size : Nat) :
    blobCount (save_attachment_blob db sha content size) sha =
      if 0 < blobCount db sha then blobCount db sha else 1 := by
  unfold save_attachment_blob
  by_cases hany : db.blobs.any (fun b => b.sha256 == sha) = true
  · rw [if_pos hany, if_pos (blob_any_iff.mp hany)]
  · have h0 : blobCount db sha = 0 := by
      by_contra hne
      exact hany (blob_any_iff.mpr (Nat.pos_of_ne_zero hne))
    rw [if_neg hany]
    simp only [blobCount] at h0 ⊢
    simp [List.countP_append, h0, if_neg]

theorem save_blobCount_le (db : AttachDB) (sha : String) (content : List Nat)
    (size : Nat) (k : String) (hle : blobCount db k ≤ 1) :
    blobCount (save_attachment_blob db sha content size) k ≤ 1 := by
  unfold save_attachment_blob
  by_cases hany : db.blobs.any (fun b => b.sha256 == sha) = true
  · rw [if_pos hany]; exact hle
  · have h0 : blobCount db sha = 0 := by
      by_contra hne
      exact hany (blob_any_iff.mpr (Nat.pos_of_ne_zero hne))
    rw [if_neg hany]
    unfold blobCount at h0 hle ⊢
    rw [List.countP_append]
    by_cases hk : sha = k
    · subst hk
      have h1 : List.countP (fun b => b.sha256 == sha)
          [(⟨sha, content, size⟩ : AttachmentBlob)] ≤ 1 := by
        simp [List.countP_cons]
      omega
    · have h1 : List.countP (fun b => b.sha256 == k)
          [(⟨sha, content, size⟩ : AttachmentBlob)] = 0 := by
        simp [List.countP_cons, hk]
      omega

theorem save_blobCount_mono (db : AttachDB) (sha : String) (content : List Nat)
    (size : Nat) (k : String) :
    blobCount db k ≤ blobCount (save_attachment_blob db sha content size) k := by
  unfold save_attachment_blob
  by_cases hany : db.blobs.any (fun b => b.sha256 == sha) = true
  · rw [if_pos hany]
  · rw [if_neg hany]
    simp only [blobCount, List.countP_append]
    omega

theorem processPart_blobCount_le (h : List Nat → String) (uid mailbox : String)
    (db : AttachDB) (p : MimePart) (k : String) (hle : blobCount db k ≤ 1) :
    blobCount (processPart h uid mailbox db p) k ≤ 1 := by
  unfold processPart
  by_cases h1 : get_filename p = none ∨ (get_filename p).getD "" = ""
  · rw [if_pos h1]; exact hle
  · rw [if_neg h1]
    by_cases h2 : p.payload.length = 0
    · rw [if_pos h2]; exact hle
    · rw [if_neg h2]
      unfold blobCount
      rw [map_blobs_eq]
      exact save_blobCount_le db _ _ _ k hle

theorem processPart_blobCount_mono (h : List Nat → String) (uid mailbox : String)
    (db : AttachDB) (p : MimePart) (k : String) :
    blobCount db k ≤ blobCount (processPart h uid mailbox db p) k := by
  unfold processPart
  by_cases h1 : get_filename p = none ∨ (get_filename p).getD "" = ""
  · rw [if_pos h1]
  · rw [if_neg h1]
    by_cases h2 : p.payload.length = 0
    · rw [if_pos h2]
    · rw [if_neg h2]
      unfold blobCount
      rw [map_blobs_eq]
      exact save_blobCount_mono db _ _ _ k

theorem processMessage_blobCount_le (h : List Nat → String) (uid mailbox : String)
    (parts : List MimePart) :
    ∀ db : AttachDB, ∀ k : String, blobCount db k ≤ 1 →
      blobCount (processMessage h uid mailbox db parts) k ≤ 1 := by
  induction parts with
  | nil => intro db k hle; exact hle
  | cons p rest ih =>
    intro db k hle
    exact ih _ k (processPart_blobCount_le h uid mailbox db p k hle)

theorem processMessage_blobCount_mono (h : List Nat → String) (uid mailbox : String)
    (parts : List MimePart) :
    ∀ db : AttachDB, ∀ k : String,
      blobCount db k ≤ blobCount (processMessage h uid mailbox db parts) k := by
  induction parts with
  | nil => intro db k; exact le_refl _
  | cons p rest ih =>
    intro db k
    exact le_trans (processPart_blobCount_mono h uid mailbox db p k) (ih _ k)

theorem processPart_stores (h : List Nat → String) (uid mailbox : String)
    (db : AttachDB) (p : MimePart) (f : String) (hf : get_filename p = some f)
    (hf' : f ≠ "") (hpl : p.payload ≠ []) :
    1 ≤ blobCount (processPart h uid mailbox db p) (h p.payload) ∧
    (⟨uid, mailbox, h p.payload, f⟩ : AttachmentMapping) ∈
      (processPart h uid mailbox db p).mappings := by
  unfold processPart
  rw [hf]
  rw [if_neg (by simp [hf']), if_neg (by simpa using hpl)]
  simp only [Option.getD_some]
  constructor
  · unfold blobCount
    rw [map_blobs_eq]
    have := save_blobCount_self db (h p.payload) p.payload p.payload.length
    unfold blobCount at this
    rw [this]
    by_cases hpos : 0 < List.countP (fun b => b.sha256 == h p.payload) db.blobs
    · rw [if_pos hpos]; omega
    · rw [if_neg hpos]
  · unfold map_email_to_attachment
    by_cases hm : (save_attachment_blob db (h p.payload) p.payload
        p.payload.length).mappings.elem
        (⟨uid, mailbox, h p.payload, f⟩ : AttachmentMapping)
    · rw [if_pos hm]
      exact List.mem_of_elem_eq_true hm
    · rw [if_neg hm]
      simp

theorem processPart_mappings_mono (h : List Nat → String) (uid mailbox : String)
    (db : AttachDB) (p : MimePart) :
    ∀ m ∈ db.mappings, m ∈ (processPart h uid mailbox db p).mappings := by
  intro m hm
  unfold processPart
  by_cases h1 : get_filename p = none ∨ (get_filename p).getD "" = ""
  · rw [if_pos h1]; exact hm
  · rw [if_neg h1]
    by_cases h2 : p.payload.length = 0
    · rw [if_pos h2]; exact hm
    · rw [if_neg h2]
      have hsb : (save_attachment_blob db (h p.payload) p.payload
          p.payload.length).mappings = db.mappings := by
        unfold save_attachment_blob
        split <;> rfl
      unfold map_email_to_attachment
      split
      · rw [hsb]; exact hm
      · simp only [hsb, List.mem_append]
        exact Or.inl hm

theorem processMessage_mappings_mono (h : List Nat → String) (uid mailbox : String)
    (parts : List MimePart) :
    ∀ db : AttachDB, ∀ m ∈ db.mappings,
      m ∈ (processMessage h uid mailbox db parts).mappings := by
  induction parts with
  | nil => intro db m hm; exact hm
  | cons p rest ih =>
    intro db m hm
    exact ih _ m (processPart_mappings_mono h uid mailbox db p m hm)

theorem processMessage_stores (h : List Nat → String) (uid mailbox : String)
    (parts : List MimePart) :
    ∀ db : AttachDB, ∀ p ∈ parts, ∀ f : String, get_filename p = some f →
      f ≠ "" → p.payload ≠ [] →
      1 ≤ blobCount (processMessage h uid mailbox db parts) (h p.payload) ∧
      (⟨uid, mailbox, h p.payload, f⟩ : AttachmentMapping) ∈
        (processMessage h uid mailbox db parts).mappings := by
  induction parts with
  | nil => intro db p hp; cases hp
  | cons q rest ih =>
    intro db p hp f hf hf' hpl
    rcases List.mem_cons.mp hp with rfl | hrest
    · have hst := processPart_stores h uid mailbox db p f hf hf' hpl
      constructor
      · exact le_trans hst.1 (processMessage_blobCount_mono h uid mailbox rest _ _)
      · exact processMessage_mappings_mono h uid mailbox rest _ _ hst.2
    · exact ih _ p hrest f hf hf' hpl

theorem processPart_blobs_mono (h : List Nat → String) (uid mailbox : String)
    (db : AttachDB) (p : MimePart) :
    ∀ b ∈ db.blobs, b ∈ (processPart h uid mailbox db p).blobs := by
  intro b hb
  unfold processPart
  by_cases h1 : get_filename p = none ∨ (get_filename p).getD "" = ""
  · rw [if_pos h1]; exact hb
  · rw [if_neg h1]
    by_cases h2 : p.payload.length = 0
    · rw [if_pos h2]; exact hb
    · rw [if_neg h2]
      rw [map_blobs_eq]
      unfold save_attachment_blob
      split
      · exact hb
      · simp only [List.mem_append]
        exact Or.inl hb

theorem two_distinct_mem_length {α : Type} {l : List α} {a b : α}
    (hab : a ≠ b) (ha : a ∈ l) (hb : b ∈ l) : 2 ≤ l.length := by
  cases l with
  | nil => cases ha
  | cons x xs =>
    cases xs with
    | nil =>
      have ha' : a = x := by simpa using ha
      have hb' : b = x := by simpa using hb
      exact absurd (ha'.trans hb'.symm) hab
    | cons y ys => simp [List.length_cons]

theorem processMessage_blobs_mono (h : List Nat → String) (uid mailbox : String)
    (parts : List MimePart) :
    ∀ db : AttachDB, ∀ b ∈ db.blobs,
      b ∈ (processMessage h uid mailbox db parts).blobs := by
  induction parts with
  | nil => intro db b hb; exact hb
  | cons p rest ih =>
    intro db b hb
    exact ih _ b (processPart_blobs_mono h uid mailbox db p b hb)

/-- C8: two distinct stored messages whose attachment parts carry
byte-identical content end up, after extraction, with exactly one
`attachment_blobs` row under that content's hash and at least two
`email_attachments` rows referencing it; blob rows are only ever appended
(insert-if-absent), never updated, by any processing step. -/
theorem C8_attachment_dedup (h : List Nat → String) (mbox uid₁ uid₂ : String)
    (parts₁ parts₂ : List MimePart) (p₁ p₂ : MimePart) (f₁ f₂ : String)
    (c : List Nat) (hne : uid₁ ≠ uid₂) (hp₁ : p₁ ∈ parts₁) (hp₂ : p₂ ∈ parts₂)
    (hf₁ : get_filename p₁ = some f₁) (hf₂ : get_filename p₂ = some f₂)
    (hf₁' : f₁ ≠ "") (hf₂' : f₂ ≠ "")
    (hc₁ : p₁.payload = c) (hc₂ : p₂.payload = c) (hcne : c ≠ []) :
    blobCount (processMessage h uid₂ mbox
      (processMessage h uid₁ mbox emptyAttachDB parts₁) parts₂) (h c) = 1 ∧
    2 ≤ (processMessage h uid₂ mbox
      (processMessage h uid₁ mbox emptyAttachDB parts₁) parts₂).mappings.countP
        (fun m => m.sha256 == h c) ∧
    (∀ (db : AttachDB) (ps : List MimePart) (u : String),
      ∀ b ∈ db.blobs, b ∈ (processMessage h u mbox db ps).blobs) := by
  have hpl₁ : p₁.payload ≠ [] := by rw [hc₁]; exact hcne
  have hpl₂ : p₂.payload ≠ [] := by rw [hc₂]; exact hcne
  have hst₁ := processMessage_stores h uid₁ mbox parts₁ emptyAttachDB p₁ hp₁ f₁
    hf₁ hf₁' hpl₁
  have hst₂ := processMessage_stores h uid₂ mbox parts₂
    (processMessage h uid₁ mbox emptyAttachDB parts₁) p₂ hp₂ f₂ hf₂ hf₂' hpl₂
  rw [hc₁] at hst₁
  rw [hc₂] at hst₂
  refine ⟨?_, ?_, fun db ps u => processMessage_blobs_mono h u mbox ps db⟩
  · have hle : blobCount (processMessage h uid₂ mbox
        (processMessage h uid₁ mbox emptyAttachDB parts₁) parts₂) (h c) ≤ 1 := by
      refine processMessage_blobCount_le h uid₂ mbox parts₂ _ _ ?_
      refine processMessage_blobCount_le h uid₁ mbox parts₁ _ _ ?_
      simp [blobCount, emptyAttachDB]
    have hge : 1 ≤ blobCount (processMessage h uid₂ mbox
        (processMessage h uid₁ mbox emptyAttachDB parts₁) parts₂) (h c) :=
      le_trans hst₁.1 (processMessage_blobCount_mono h uid₂ mbox parts₂ _ _)
    omega
  · have hm₁ : (⟨uid₁, mbox, h c, f₁⟩ : AttachmentMapping) ∈
        (processMessage h uid₂ mbox
          (processMessage h uid₁ mbox emptyAttachDB parts₁) parts₂).mappings :=
      processMessage_mappings_mono h uid₂ mbox parts₂ _ _ hst₁.2
    have hm₂ : (⟨uid₂, mbox, h c, f₂⟩ : AttachmentMapping) ∈
        (processMessage h uid₂ mbox
          (processMessage h uid₁ mbox emptyAttachDB parts₁) parts₂).mappings :=
      hst₂.2
    rw [List.countP_eq_length_filter]
    refine two_distinct_mem_length ?_
      (List.mem_filter.mpr ⟨hm₁, by simp⟩) (List.mem_filter.mpr ⟨hm₂, by simp⟩)
    intro he
    exact hne (congrArg AttachmentMapping.uid he)

/-- Witness for C8: two messages (UIDs "1" and "2") each with one
attachment of identical content [1, 2]: one blob row, two mapping rows. -/
theorem C8_attachment_dedup_witness :
    blobCount (processMessage (fun _ => "H") "2" "INBOX"
      (processMessage (fun _ => "H") "1" "INBOX" emptyAttachDB
        [⟨some "a.txt", none, [1, 2]⟩]) [⟨some "b.txt", none, [1, 2]⟩]) "H" = 1 ∧
    2 ≤ (processMessage (fun _ => "H") "2" "INBOX"
      (processMessage (fun _ => "H") "1" "INBOX" emptyAttachDB
        [⟨some "a.txt", none, [1, 2]⟩])
        [⟨some "b.txt", none, [1, 2]⟩]).mappings.countP
        (fun m => m.sha256 == "H") := by
  have h := C8_attachment_dedup (fun _ => "H") "INBOX" "1" "2"
    [⟨some "a.txt", none, [1, 2]⟩] [⟨some "b.txt", none, [1, 2]⟩]
    ⟨some "a.txt", none, [1, 2]⟩ ⟨some "b.txt", none, [1, 2]⟩
    "a.txt" "b.txt" [1, 2] (by decide) (by decide) (by decide)
    (by decide) (by decide) (by decide) (by decide) rfl rfl (by decide)
  exact ⟨h.1, h.2.1⟩

/-- C9: during attachment extraction a MIME part with no usable filename
(none synthesizable from the content type) or a zero-length decoded
payload is skipped, producing no blob row and no mapping row; when the
Content-Disposition filename is absent, the filename falls back to the
Content-Type `name` parameter. -/
theorem C9_part_skip_rules (h : List Nat → String) (uid mailbox : String)
    (db : AttachDB) (p : MimePart)
    (hskip : get_filename p = none ∨ p.payload.length = 0) :
    processPart h uid mailbox db p = db ∧
    (∀ q : MimePart, q.dispositionFilename = none →
      get_filename q = q.contentTypeName) := by
  constructor
  · unfold processPart
    rcases hskip with hn | hz
    · rw [if_pos (Or.inl hn)]
    · by_cases h1 : get_filename p = none ∨ (get_filename p).getD "" = ""
      · rw [if_pos h1]
      · rw [if_neg h1, if_pos hz]
  · intro q hq
    simp [get_filename, hq, Option.orElse]

/-- Witness for C9: a part with no filename anywhere and nonempty payload
is skipped (the database is unchanged). -/
theorem C9_part_skip_rules_witness :
    processPart (fun _ => "H") "1" "INBOX" emptyAttachDB ⟨none, none, [1]⟩ =
      emptyAttachDB :=
  (C9_part_skip_rules (fun _ => "H") "1" "INBOX" emptyAttachDB
    ⟨none, none, [1]⟩ (Or.inl rfl)).1

/-! ### `ImapClient.select_mailbox` (`src/imap_client.py:48-71`) -/

/-- `ImapClient._quote_mailbox_if_needed` (`src/imap_client.py:48-53`):
wrap the name in double quotes when it contains a space or slash and is
not already quoted. -/
def quote_mailbox_if_needed (mailbox : String) : String :=
  if mailbox.data.head? = some '\"' ∧ mailbox.data.getLast? = some '\"' then
    mailbox
  else if mailbox.data.contains ' ' ∨ mailbox.data.contains '/' then
    "\"" ++ mailbox ++ "\""
  else mailbox

/-- The part of `ImapClient`'s state that `select_mailbox` reads and
writes. -/
structure ImapState where
  current_mailbox : Option String
deriving Repr, DecidableEq

/-- `ImapClient.select_mailbox` (`src/imap_client.py:55-71`), with the
transport's `imap.select` outcome modelled by `transportOk` applied to the
quoted mailbox name. Returns (new state, returned Bool, whether a select
command was issued to the transport). -/
def select_mailbox (transportOk : String → Bool) (s : ImapState)
    (mailbox : String) : ImapState × Bool × Bool :=
  if s.current_mailbox = some mailbox then
    (s, true, false)
  else if transportOk (quote_mailbox_if_needed mailbox) then
    ({ current_mailbox := some mailbox }, true, true)
  else
    (s, false, true)

/-- C10: selecting the already-current mailbox returns True without
issuing any transport command (idempotence); a select that returns True
leaves `current_mailbox = mailbox`; a select that returns False issued a
transport command, left the state unchanged, and can only happen when the
mailbox was not already current. -/
theorem C10_select_mailbox_idempotent (t : String → Bool) (s : ImapState)
    (m : String) :
    (s.current_mailbox = some m → select_mailbox t s m = (s, true, false)) ∧
    ((select_mailbox t s m).2.1 = true →
      (select_mailbox t s m).1.current_mailbox = some m) ∧
    ((select_mailbox t s m).2.1 = false →
      (select_mailbox t s m).1 = s ∧ s.current_mailbox ≠ some m ∧
      (select_mailbox t s m).2.2 = true) := by
  unfold select_mailbox
  by_cases h1 : s.current_mailbox = some m
  · rw [if_pos h1]
    exact ⟨fun _ => rfl, fun _ => h1, fun hf => by cases hf⟩
  · rw [if_neg h1]
    by_cases h2 : t (quote_mailbox_if_needed m) = true
    · rw [if_pos h2]
      exact ⟨fun hc => absurd hc h1, fun _ => rfl, fun hf => by cases hf⟩
    · rw [if_neg h2]
      refine ⟨fun hc => absurd hc h1, fun ht => ?_, fun _ => ⟨rfl, h1, rfl⟩⟩
      cases ht

/-- Witness for C10: with "INBOX" already selected and a transport that
would fail, `select_mailbox` still returns True and issues no command. -/
theorem C10_select_mailbox_idempotent_witness :
    select_mailbox (fun _ => false) ⟨some "INBOX"⟩ "INBOX" =
      (⟨some "INBOX"⟩, true, false) :=
  (C10_select_mailbox_idempotent (fun _ => false) ⟨some "INBOX"⟩ "INBOX").1 rfl

/-! ### Run-level exception handling (`EmailSyncer.run`,
`src/sync.py:198-216`; `sync_email_headers`, `src/sync.py:292-295`) -/

/-- An exceptional outcome of the sync loop body: operator cancellation
(`KeyboardInterrupt`) or a generic exception with its message. -/
inductive RunExc where
  | interrupt
  | error (msg : String)
deriving Repr, DecidableEq

/-- Observable effects of the run-level handlers: commits performed, the
SyncRun status/message records written via `finish_sync`, and whether the
checkpoint was marked complete. -/
structure RunLog where
  commits : Nat
  syncRuns : List (String × String)
  checkpoint_complete : Bool
deriving Repr, DecidableEq

/-- `DatabaseManager.commit_with_retry` as observed at the run level. -/
def commit (log : RunLog) : RunLog := { log with commits := log.commits + 1 }

/-- `EmailSyncer.finish_sync` (`src/sync.py:37-40`): record the SyncRun
status/message and `checkpoint.mark_complete()`. -/
def finish_sync (log : RunLog) (status msg : String) : RunLog :=
  { log with syncRuns := log.syncRuns ++ [(status, msg)],
             checkpoint_complete := true }

/-- The `try/except` at the top of `EmailSyncer.run`
(`src/sync.py:148-216`): on `KeyboardInterrupt`, commit +
`finish_sync('INTERRUPTED', ...)` then re-raise; on any other exception,
commit + `finish_sync('ERROR', str(e)[:200])` then re-raise; on normal
completion, commit + a COMPLETED record. `body` is the outcome of the
loop body. -/
def run_handler (body : Except RunExc Unit) (log : RunLog) :
    RunLog × Except RunExc Unit :=
  match body with
  | .ok _ => (finish_sync (commit log) "COMPLETED" "", .ok ())
  | .error .interrupt =>
      (finish_sync (commit log) "INTERRUPTED" "Interrupted by user",
        .error .interrupt)
  | .error (.error msg) =>
      (finish_sync (commit log) "ERROR" (msg.take 200), .error (.error msg))

/-- The `try/except Exception` wrapper of `sync_email_headers`
(`src/sync.py:232-295`): `KeyboardInterrupt` is not a Python `Exception`
and propagates; a generic exception is caught, an ERROR SyncRun row is
written, and the function returns normally (no re-raise). -/
def sync_email_headers_wrapper (r : RunLog × Except RunExc Unit) :
    RunLog × Except RunExc Unit :=
  match r.2 with
  | .ok _ => r
  | .error .interrupt => r
  | .error (.error msg) => (finish_sync r.1 "ERROR" (msg.take 200), .ok ())

/-- `sync_email_headers` around the `EmailSyncer.run` call: the run-level
handler composed with the module-level `except Exception` wrapper. -/
def sync_email_headers_run (body : Except RunExc Unit) (log : RunLog) :
    RunLog × Except RunExc Unit :=
  sync_email_headers_wrapper (run_handler body log)

/-- C4 (counterexample): a generic exception raised during the run is
re-raised by `EmailSyncer.run` but then caught by `sync_email_headers`'s
`except Exception`, which returns normally — the exception does NOT
propagate to the invoker of the sync operation. -/
theorem C4_counterexample :
    (sync_email_headers_run (.error (.error "boom")) ⟨0, [], false⟩).2 =
      .ok () ∧
    (run_handler (.error (.error "boom")) ⟨0, [], false⟩).2 =
      .error (.error "boom") :=
  ⟨rfl, rfl⟩

/-- C4 (amended): on interruption or unexpected exception `EmailSyncer.run`
commits staged work, writes a SyncRun record with status INTERRUPTED or
ERROR (message truncated to 200 characters), marks the checkpoint
complete, and re-raises to its caller; operator cancellation propagates
through `sync_email_headers` to its invoker, while a generic exception is
caught there, recorded as a (second) ERROR SyncRun row, and
`sync_email_headers` returns normally — the error is recorded, never
silently dropped, but it does not propagate past `sync_email_headers`. -/
theorem C4_run_level_handling (msg : String) (log : RunLog) :
    (run_handler (.error (.error msg)) log =
      (finish_sync (commit log) "ERROR" (msg.take 200), .error (.error msg))) ∧
    (run_handler (.error .interrupt) log =
      (finish_sync (commit log) "INTERRUPTED" "Interrupted by user",
        .error .interrupt)) ∧
    (finish_sync (commit log) "ERROR" (msg.take 200)).checkpoint_complete = true ∧
    (finish_sync (commit log) "ERROR" (msg.take 200)).commits = log.commits + 1 ∧
    ("ERROR", msg.take 200) ∈
      (finish_sync (commit log) "ERROR" (msg.take 200)).syncRuns ∧
    (sync_email_headers_run (.error .interrupt) log).2 = .error .interrupt ∧
    (sync_email_headers_run (.error (.error msg)) log).2 = .ok () ∧
    ("ERROR", msg.take 200) ∈
      (sync_email_headers_run (.error (.error msg)) log).1.syncRuns := by
  refine ⟨rfl, rfl, rfl, rfl, ?_, rfl, rfl, ?_⟩
  · simp [finish_sync, commit]
  · simp [sync_email_headers_run, sync_email_headers_wrapper, run_handler,
      finish_sync, commit]

end GmailSqliteDb
